import Mathlib

/-!
Shallow embedding of the keyboard-overlay core (src/src/main.rs): event
decoding, modifier tracking, run-length history compression and pruning.
Definitions are translated directly from the Rust source; theorems verify
the natural-language specification against them.
-/

set_option maxRecDepth 4000

/-- Key press direction decoded from an input record value
(`enum KeyPressState` in main.rs). -/
inductive KeyPressState where
  | Up
  | Down
deriving DecidableEq, Repr

/-- Resolved key (`enum KeyPress` in main.rs). -/
inductive KeyPress where
  | Ctrl
  | Alt
  | Shift
  | Super
  | Other (s : String)
deriving DecidableEq, Repr

/-- Key codes from `linux/input-event-codes.h`, as exposed through the
generated `input_bindings` module.  The numeric values are fixed by the
Linux kernel ABI. -/
def KEY_LEFTCTRL : Nat := 29
def KEY_RIGHTCTRL : Nat := 97
def KEY_LEFTSHIFT : Nat := 42
def KEY_RIGHTSHIFT : Nat := 54
def KEY_LEFTALT : Nat := 56
def KEY_RIGHTALT : Nat := 100
def KEY_LEFTMETA : Nat := 125
def KEY_RIGHTMETA : Nat := 126

/-- Static scancode-to-label table (`code_to_str` in main.rs). -/
def code_to_str (code : Nat) : String :=
  match code with
  | 1 => "ESC"
  | 2 => "1"
  | 3 => "2"
  | 4 => "3"
  | 5 => "4"
  | 6 => "5"
  | 7 => "6"
  | 8 => "7"
  | 9 => "8"
  | 10 => "9"
  | 11 => "0"
  | 12 => "-"
  | 13 => "="
  | 14 => "BACKSPACE"
  | 15 => "TAB"
  | 16 => "Q"
  | 17 => "W"
  | 18 => "E"
  | 19 => "R"
  | 20 => "T"
  | 21 => "Y"
  | 22 => "U"
  | 23 => "I"
  | 24 => "O"
  | 25 => "P"
  | 26 => "LEFTBRACE"
  | 27 => "RIGHTBRACE"
  | 28 => "ENTER"
  | 29 => "LEFTCTRL"
  | 30 => "A"
  | 31 => "S"
  | 32 => "D"
  | 33 => "F"
  | 34 => "G"
  | 35 => "H"
  | 36 => "J"
  | 37 => "K"
  | 38 => "L"
  | 39 => "SEMICOLON"
  | 40 => "APOSTROPHE"
  | 41 => "GRAVE"
  | 42 => "LEFTSHIFT"
  | 43 => "BACKSLASH"
  | 44 => "Z"
  | 45 => "X"
  | 46 => "C"
  | 47 => "V"
  | 48 => "B"
  | 49 => "N"
  | 50 => "M"
  | 51 => "COMMA"
  | 52 => "DOT"
  | 53 => "SLASH"
  | 54 => "RIGHTSHIFT"
  | 55 => "KPASTERISK"
  | 56 => "LEFTALT"
  | 57 => "SPACE"
  | 58 => "CAPSLOCK"
  | 59 => "F1"
  | 60 => "F2"
  | 61 => "F3"
  | 62 => "F4"
  | 63 => "F5"
  | 64 => "F6"
  | 65 => "F7"
  | 66 => "F8"
  | 67 => "F9"
  | 68 => "F10"
  | 69 => "NUMLOCK"
  | 70 => "SCROLLLOCK"
  | 71 => "KP7"
  | 72 => "KP8"
  | 73 => "KP9"
  | 74 => "KPMINUS"
  | 75 => "KP4"
  | 76 => "KP5"
  | 77 => "KP6"
  | 78 => "KPPLUS"
  | 79 => "KP1"
  | 80 => "KP2"
  | 81 => "KP3"
  | 82 => "KP0"
  | 83 => "KPDOT"
  | 87 => "F11"
  | 88 => "F12"
  | 89 => "RO"
  | 96 => "KPENTER"
  | 97 => "RIGHTCTRL"
  | 98 => "KPSLASH"
  | 99 => "SYSRQ"
  | 100 => "RIGHTALT"
  | 101 => "LINEFEED"
  | 102 => "HOME"
  | 103 => "UP"
  | _ => "UNKNOWN"

/-- Scancode classification (`KeyPress::from_code` in main.rs). -/
def KeyPress.from_code (code : Nat) : KeyPress :=
  if code = KEY_LEFTCTRL ∨ code = KEY_RIGHTCTRL then KeyPress.Ctrl
  else if code = KEY_LEFTSHIFT ∨ code = KEY_RIGHTSHIFT then KeyPress.Shift
  else if code = KEY_LEFTALT ∨ code = KEY_RIGHTALT then KeyPress.Alt
  else if code = KEY_LEFTMETA ∨ code = KEY_RIGHTMETA then KeyPress.Super
  else KeyPress.Other (code_to_str code)

/-- True on the four modifier variants of `KeyPress`, false on `Other`. -/
def KeyPress.isModifier : KeyPress → Bool
  | KeyPress.Other _ => false
  | _ => true

/-- Live modifier state (`struct Modifiers` in main.rs). -/
structure Modifiers where
  ctrl : Bool
  shift : Bool
  alt : Bool
  sup : Bool
deriving DecidableEq, Repr

/-- `is_keydown` in main.rs. -/
def is_keydown (press_state : KeyPressState) : Bool :=
  press_state == KeyPressState.Down

/-- `Modifiers::update` in main.rs, as a pure state transformer. -/
def Modifiers.update (m : Modifiers) (key_press : KeyPress)
    (press_state : KeyPressState) : Modifiers :=
  match key_press with
  | KeyPress.Alt => { m with alt := is_keydown press_state }
  | KeyPress.Ctrl => { m with ctrl := is_keydown press_state }
  | KeyPress.Shift => { m with shift := is_keydown press_state }
  | KeyPress.Super => { m with sup := is_keydown press_state }
  | _ => m

/-- One history entry (`struct KeyHistoryItem` in main.rs). -/
structure KeyHistoryItem where
  key_s : String
  modifiers : Modifiers
deriving DecidableEq, Repr

/-- Decoded kernel input record (the fields of `input_event` that the
program reads: `type_`, `code`, `value`). -/
structure InputEvent where
  type_ : Nat
  code : Nat
  value : Int
deriving DecidableEq, Repr

/-- `event_press_state` in main.rs: value 0 decodes to Up, 1 to Down,
anything else is unrecognized. -/
def event_press_state (event : InputEvent) : Option KeyPressState :=
  if event.value = 0 then some KeyPressState.Up
  else if event.value = 1 then some KeyPressState.Down
  else none

/-- `is_same_key_chord` in main.rs: structural equality of symbol text and
modifier snapshot. -/
def is_same_key_chord (a b : KeyHistoryItem) : Bool :=
  a.key_s == b.key_s && a.modifiers == b.modifiers

/-- `render_item` in main.rs: modifier prefix in the fixed order Alt,
Super, Ctrl, Shift, then the symbol, a space, and the count suffix. -/
def render_item (item : KeyHistoryItem) (count : Nat) : String :=
  let count_str := if count > 1 then "x" ++ toString count else ""
  let modifier_str := ""
  let modifier_str :=
    if item.modifiers.alt then modifier_str ++ "Alt + " else modifier_str
  let modifier_str :=
    if item.modifiers.sup then modifier_str ++ "Super + " else modifier_str
  let modifier_str :=
    if item.modifiers.ctrl then modifier_str ++ "Ctrl + " else modifier_str
  let modifier_str :=
    if item.modifiers.shift then modifier_str ++ "Shift + " else modifier_str
  modifier_str ++ item.key_s ++ " " ++ count_str

/-- `MAX_LINES` in `render_keycodes`. -/
def MAX_LINES : Nat := 40

/-- The `for (i, item) in key_history` loop of `render_keycodes` in
main.rs.  `i` is the enumeration index of the next item, `ret` the groups
emitted so far, `lastItem`/`lastCount` the current run, `lastIdx` the
`last_elem_idx` variable. -/
def renderKeycodesLoop : List KeyHistoryItem → Nat → List String →
    KeyHistoryItem → Nat → Nat → List String × Nat
  | [], _, ret, lastItem, lastCount, lastIdx =>
      (ret ++ [render_item lastItem lastCount], lastIdx)
  | item :: rest, i, ret, lastItem, lastCount, _ =>
      if ret.length > MAX_LINES then (ret, i)
      else if is_same_key_chord item lastItem then
        renderKeycodesLoop rest (i + 1) ret item (lastCount + 1) i
      else
        renderKeycodesLoop rest (i + 1)
          (ret ++ [render_item lastItem lastCount]) item 1 i

/-- `render_keycodes` in main.rs, over the newest-first item sequence.
Returns the emitted display lines and `last_elem_idx`. -/
def render_keycodes (key_history : List KeyHistoryItem) :
    List String × Nat :=
  match key_history with
  | [] => ([], 0)
  | first :: rest => renderKeycodesLoop rest 1 [] first 1 1

/-- Observable state of `struct App` in main.rs (the fields the update
path reads and writes). -/
structure AppState where
  pressed_keycodes : List KeyHistoryItem
  rendered_keycodes : List String
  current_modifier_state : Modifiers
deriving DecidableEq, Repr

/-- Initial app state (`App::new` in main.rs). -/
def initApp : AppState :=
  { pressed_keycodes := []
    rendered_keycodes := []
    current_modifier_state :=
      { ctrl := false, shift := false, alt := false, sup := false } }

/-- `App::process_input_event` in main.rs.  The history deque is modelled
oldest-first: `push_back` appends at the tail, `iter().rev()` is
`List.reverse`, and the `pop_front` pruning loop is `List.drop`. -/
def process_input_event (app : AppState) (event : InputEvent) : AppState :=
  match event_press_state event with
  | none => app
  | some press_state =>
    let keypress := KeyPress.from_code event.code
    let mods := Modifiers.update app.current_modifier_state keypress press_state
    match keypress with
    | KeyPress.Other s =>
      if !is_keydown press_state then
        { app with current_modifier_state := mods }
      else
        let item : KeyHistoryItem := { key_s := s, modifiers := mods }
        let buf := app.pressed_keycodes ++ [item]
        let r := render_keycodes buf.reverse
        { pressed_keycodes := buf.drop (buf.length - 1 - r.2)
          rendered_keycodes := r.1
          current_modifier_state := mods }
    | _ => { app with current_modifier_state := mods }

/-- The pruning step at the end of `App::process_input_event`: pop
`last_used_elem..len-1` entries from the front after a render pass over
the reversed buffer. -/
def prune_after_render (buf : List KeyHistoryItem) : List KeyHistoryItem :=
  buf.drop (buf.length - 1 - (render_keycodes buf.reverse).2)

/-- `App::process_input_event` instrumented with the number of render
passes (invocations of `render_keycodes`) it performs. -/
def process_input_event_instr (app : AppState) (event : InputEvent) :
    AppState × Nat :=
  match event_press_state event with
  | none => (app, 0)
  | some press_state =>
    let keypress := KeyPress.from_code event.code
    let mods := Modifiers.update app.current_modifier_state keypress press_state
    match keypress with
    | KeyPress.Other s =>
      if !is_keydown press_state then
        ({ app with current_modifier_state := mods }, 0)
      else
        let item : KeyHistoryItem := { key_s := s, modifiers := mods }
        let buf := app.pressed_keycodes ++ [item]
        let r := render_keycodes buf.reverse
        ({ pressed_keycodes := buf.drop (buf.length - 1 - r.2)
           rendered_keycodes := r.1
           current_modifier_state := mods }, 1)
    | _ => ({ app with current_modifier_state := mods }, 0)

/-- The event condition under which `process_input_event` reaches the
render-and-prune path: a recognized Down of a non-modifier key. -/
def triggers_render (event : InputEvent) : Bool :=
  match event_press_state event with
  | none => false
  | some press_state =>
    match KeyPress.from_code event.code with
    | KeyPress.Other _ => is_keydown press_state
    | _ => false

/-- The `while let Ok(event) = self.rx.try_recv()` drain loop of
`App::update` in main.rs: process every queued event in FIFO order.  The
second component counts the render passes performed during the tick. -/
def app_update_tick (app : AppState) (events : List InputEvent) :
    AppState × Nat :=
  events.foldl
    (fun acc e =>
      ((process_input_event_instr acc.1 e).1,
        acc.2 + (process_input_event_instr acc.1 e).2))
    (app, 0)

/-- Number of items the `render_keycodes` loop pulls from the iterator,
counting from the loop entry (mirrors the loop structure of
`renderKeycodesLoop`: an item is pulled, then possibly the early return
fires). -/
def reachedCntLoop : List KeyHistoryItem → Nat → KeyHistoryItem → Nat
  | [], _, _ => 0
  | item :: rest, retLen, lastItem =>
      if retLen > MAX_LINES then 1
      else if is_same_key_chord item lastItem then
        1 + reachedCntLoop rest retLen item
      else 1 + reachedCntLoop rest (retLen + 1) item

/-- Number of history entries reached (pulled from the newest-first
iterator) during one `render_keycodes` pass. -/
def reachedCnt : List KeyHistoryItem → Nat
  | [] => 0
  | x :: rest => 1 + reachedCntLoop rest 0 x

/-- Length of the leading run of the list that is chord-equal to its
predecessor, starting from `x` (the newest item). -/
def chainRun : List KeyHistoryItem → KeyHistoryItem → Nat
  | [], _ => 0
  | y :: rest, x => if is_same_key_chord y x then 1 + chainRun rest y else 0

/-- Predicate picking the Ctrl variant of `KeyPress`. -/
def isCtrlKey : KeyPress → Bool
  | KeyPress.Ctrl => true
  | _ => false

/-- Predicate picking the Alt variant of `KeyPress`. -/
def isAltKey : KeyPress → Bool
  | KeyPress.Alt => true
  | _ => false

/-- Predicate picking the Shift variant of `KeyPress`. -/
def isShiftKey : KeyPress → Bool
  | KeyPress.Shift => true
  | _ => false

/-- Predicate picking the Super variant of `KeyPress`. -/
def isSuperKey : KeyPress → Bool
  | KeyPress.Super => true
  | _ => false

/-- The value carried by the last transition of the selected modifier in
the event sequence, or the default `d` when that modifier never occurs:
Down sets true, Up sets false. -/
def lastModState (p : KeyPress → Bool) :
    Bool → List (KeyPress × KeyPressState) → Bool
  | d, [] => d
  | d, e :: rest => lastModState p (if p e.1 then is_keydown e.2 else d) rest

/-- The per-group formatting rule exactly as the specification words it:
modifier prefix in the order Alt, Super, Ctrl, Shift, then the symbol
text, then the suffix with the multiplication sign when the count exceeds
one, and no suffix otherwise. -/
def spec_render_item (item : KeyHistoryItem) (count : Nat) : String :=
  (if item.modifiers.alt then "Alt + " else "")
    ++ (if item.modifiers.sup then "Super + " else "")
    ++ (if item.modifiers.ctrl then "Ctrl + " else "")
    ++ (if item.modifiers.shift then "Shift + " else "")
    ++ item.key_s
    ++ (if count > 1 then "×" ++ toString count else "")

/-- The per-group formatting rule as the code actually behaves: modifier
prefix in the order Alt, Super, Ctrl, Shift, then the symbol text, then a
single space, then an ASCII `x` count suffix when the count exceeds one
and nothing after the space otherwise. -/
def amended_render_item (item : KeyHistoryItem) (count : Nat) : String :=
  (if item.modifiers.alt then "Alt + " else "")
    ++ (if item.modifiers.sup then "Super + " else "")
    ++ (if item.modifiers.ctrl then "Ctrl + " else "")
    ++ (if item.modifiers.shift then "Shift + " else "")
    ++ item.key_s ++ " "
    ++ (if count > 1 then "x" ++ toString count else "")

/-- A plain chord with no active modifiers, symbol `A`. -/
def sampleA : KeyHistoryItem :=
  { key_s := "A"
    modifiers := { ctrl := false, shift := false, alt := false, sup := false } }

/-- A plain chord with no active modifiers, symbol `B`. -/
def sampleB : KeyHistoryItem :=
  { key_s := "B"
    modifiers := { ctrl := false, shift := false, alt := false, sup := false } }

/-- `2 * n` alternating distinct chords; every adjacent pair differs, so
every entry forms its own render group. -/
def altAB : Nat → List KeyHistoryItem
  | 0 => []
  | n + 1 => sampleA :: sampleB :: altAB n

/-- Chord equality as tested by `is_same_key_chord` coincides with
structural equality of history items. -/
theorem same_chord_eq {a b : KeyHistoryItem}
    (h : is_same_key_chord a b = true) : a = b := by
  cases a with
  | mk ka ma =>
    cases b with
    | mk kb mb =>
      simp only [is_same_key_chord, Bool.and_eq_true, beq_iff_eq] at h
      simp [h.1, h.2]

/-- `is_same_key_chord` is reflexive. -/
theorem same_chord_refl (a : KeyHistoryItem) : is_same_key_chord a a = true := by
  simp [is_same_key_chord]

/-- The render loop never grows its output beyond 42 lines when entered
with at most 41. -/
theorem renderKeycodesLoop_length_le (items : List KeyHistoryItem) :
    ∀ (i : Nat) (ret : List String) (x : KeyHistoryItem) (c li : Nat),
      ret.length ≤ 41 →
      ((renderKeycodesLoop items i ret x c li).1).length ≤ 42 := by
  induction items with
  | nil =>
    intro i ret x c li h
    simp only [renderKeycodesLoop, List.length_append, List.length_singleton]
    omega
  | cons a rest ih =>
    intro i ret x c li h
    simp only [renderKeycodesLoop]
    split
    · simpa using by omega
    · next hlen =>
      simp only [MAX_LINES, Nat.not_lt] at hlen
      split
      · exact ih _ _ _ _ _ h
      · refine ih _ _ _ _ _ ?_
        simp only [List.length_append, List.length_singleton]
        omega

/-- C1: the claim that a render pass returns at most 40 groups is false:
a history of 42 pairwise-distinct adjacent chords yields 42 groups. -/
theorem c1_counterexample :
    40 < (render_keycodes (altAB 21)).1.length := by decide

/-- C1 (amended): a single render pass over any history buffer returns at
most 42 display groups (the early-exit check allows the list to reach 41
inside the loop and the unconditional final push allows 42). -/
theorem c1_render_group_cap_amended (key_history : List KeyHistoryItem) :
    (render_keycodes key_history).1.length ≤ 42 := by
  cases key_history with
  | nil => simp [render_keycodes]
  | cons first rest =>
    exact renderKeycodesLoop_length_le rest 1 [] first 1 1 (by simp)

/-- Running the render loop over a run of items chord-equal to the current
one extends the current count and emits a single group at the end. -/
theorem renderKeycodesLoop_replicate (k : Nat) :
    ∀ (x : KeyHistoryItem) (i : Nat) (ret : List String) (c li : Nat),
      ret.length ≤ MAX_LINES →
      renderKeycodesLoop (List.replicate k x) i ret x c li
        = (ret ++ [render_item x (c + k)], if k = 0 then li else i + k - 1) := by
  induction k with
  | zero =>
    intro x i ret c li _
    simp [renderKeycodesLoop]
  | succ k ih =>
    intro x i ret c li h
    simp only [List.replicate, renderKeycodesLoop]
    have hcond : ¬(ret.length > MAX_LINES) := by omega
    rw [if_neg hcond, if_pos (same_chord_refl x), ih x (i + 1) ret (c + 1) i h]
    rw [if_neg (Nat.succ_ne_zero k)]
    simp only [Prod.mk.injEq]
    refine ⟨by rw [show c + 1 + k = c + (k + 1) from by omega], ?_⟩
    split
    · next hk => subst hk; omega
    · omega

/-- C2: a history buffer consisting of `n ≥ 1` structurally equal chords
renders as exactly one group, the chord with repeat count `n`; with a
single group the newest-first group order is immediate. -/
theorem c2_run_collapse (n : Nat) (c : KeyHistoryItem) (h : 1 ≤ n) :
    (render_keycodes (List.replicate n c)).1 = [render_item c n] := by
  cases n with
  | zero => omega
  | succ m =>
    simp only [List.replicate, render_keycodes]
    rw [renderKeycodesLoop_replicate m c 1 [] 1 1 (by simp [MAX_LINES])]
    rw [show (1 : Nat) + m = m + 1 from by omega]
    simp

/-- Witness for C2 at a concrete run of three identical chords. -/
theorem c2_witness :
    (render_keycodes (List.replicate 3 sampleA)).1 = [render_item sampleA 3] :=
  c2_run_collapse 3 sampleA (by decide)

/-- The ctrl field of a fold of `Modifiers.update` equals the last ctrl
transition, defaulting to the starting value. -/
theorem foldl_update_ctrl (evs : List (KeyPress × KeyPressState)) :
    ∀ m : Modifiers,
      (evs.foldl (fun m e => m.update e.1 e.2) m).ctrl
        = lastModState isCtrlKey m.ctrl evs := by
  induction evs with
  | nil => intro m; rfl
  | cons e rest ih =>
    intro m
    simp only [List.foldl_cons, lastModState]
    rw [ih]
    congr 1
    cases e.1 <;> simp [Modifiers.update, isCtrlKey]

/-- The alt field of a fold of `Modifiers.update` equals the last alt
transition, defaulting to the starting value. -/
theorem foldl_update_alt (evs : List (KeyPress × KeyPressState)) :
    ∀ m : Modifiers,
      (evs.foldl (fun m e => m.update e.1 e.2) m).alt
        = lastModState isAltKey m.alt evs := by
  induction evs with
  | nil => intro m; rfl
  | cons e rest ih =>
    intro m
    simp only [List.foldl_cons, lastModState]
    rw [ih]
    congr 1
    cases e.1 <;> simp [Modifiers.update, isAltKey]

/-- The shift field of a fold of `Modifiers.update` equals the last shift
transition, defaulting to the starting value. -/
theorem foldl_update_shift (evs : List (KeyPress × KeyPressState)) :
    ∀ m : Modifiers,
      (evs.foldl (fun m e => m.update e.1 e.2) m).shift
        = lastModState isShiftKey m.shift evs := by
  induction evs with
  | nil => intro m; rfl
  | cons e rest ih =>
    intro m
    simp only [List.foldl_cons, lastModState]
    rw [ih]
    congr 1
    cases e.1 <;> simp [Modifiers.update, isShiftKey]

/-- The sup field of a fold of `Modifiers.update` equals the last super
transition, defaulting to the starting value. -/
theorem foldl_update_sup (evs : List (KeyPress × KeyPressState)) :
    ∀ m : Modifiers,
      (evs.foldl (fun m e => m.update e.1 e.2) m).sup
        = lastModState isSuperKey m.sup evs := by
  induction evs with
  | nil => intro m; rfl
  | cons e rest ih =>
    intro m
    simp only [List.foldl_cons, lastModState]
    rw [ih]
    congr 1
    cases e.1 <;> simp [Modifiers.update, isSuperKey]

/-- C3: after processing any sequence of resolved key events from the
initial state, each modifier field equals the value set by that
modifier's last Down(=true)/Up(=false) transition, false when that
modifier never occurs; and an event of a non-modifier key never changes
any modifier field. -/
theorem c3_modifier_tracking :
    (∀ evs : List (KeyPress × KeyPressState),
      ((evs.foldl (fun m e => m.update e.1 e.2)
          initApp.current_modifier_state).ctrl
          = lastModState isCtrlKey false evs)
      ∧ ((evs.foldl (fun m e => m.update e.1 e.2)
          initApp.current_modifier_state).alt
          = lastModState isAltKey false evs)
      ∧ ((evs.foldl (fun m e => m.update e.1 e.2)
          initApp.current_modifier_state).shift
          = lastModState isShiftKey false evs)
      ∧ ((evs.foldl (fun m e => m.update e.1 e.2)
          initApp.current_modifier_state).sup
          = lastModState isSuperKey false evs))
    ∧ (∀ (m : Modifiers) (s : String) (ps : KeyPressState),
        Modifiers.update m (KeyPress.Other s) ps = m) := by
  constructor
  · intro evs
    refine ⟨?_, ?_, ?_, ?_⟩
    · rw [foldl_update_ctrl]; rfl
    · rw [foldl_update_alt]; rfl
    · rw [foldl_update_shift]; rfl
    · rw [foldl_update_sup]; rfl
  · intro m s ps
    rfl

/-- The render loop pulls at most as many items as the list holds. -/
theorem reachedCntLoop_le (items : List KeyHistoryItem) :
    ∀ (retLen : Nat) (x : KeyHistoryItem),
      reachedCntLoop items retLen x ≤ items.length := by
  induction items with
  | nil => intro retLen x; simp [reachedCntLoop]
  | cons a rest ih =>
    intro retLen x
    simp only [reachedCntLoop, List.length_cons]
    split
    · omega
    · split
      · have := ih retLen a
        omega
      · have := ih (retLen + 1) a
        omega

/-- On a nonempty loop input, `last_elem_idx` returned by the render loop
is the enumeration index of the last item pulled: entry index plus pulled
count minus one. -/
theorem renderKeycodesLoop_idx (items : List KeyHistoryItem) :
    ∀ (i : Nat) (ret : List String) (x : KeyHistoryItem) (c li : Nat),
      items ≠ [] →
      (renderKeycodesLoop items i ret x c li).2
        = i + reachedCntLoop items ret.length x - 1 := by
  induction items with
  | nil => intro i ret x c li h; exact absurd rfl h
  | cons a rest ih =>
    intro i ret x c li _
    simp only [renderKeycodesLoop, reachedCntLoop]
    split
    · simp
    · split
      · by_cases hrest : rest = []
        · subst hrest
          simp [renderKeycodesLoop, reachedCntLoop]
        · rw [ih (i + 1) ret a (c + 1) i hrest]
          have := reachedCntLoop_le rest ret.length a
          omega
      · by_cases hrest : rest = []
        · subst hrest
          simp [renderKeycodesLoop, reachedCntLoop]
        · rw [ih (i + 1) (ret ++ [render_item x c]) a 1 i hrest]
          simp only [List.length_append, List.length_singleton]
          have := reachedCntLoop_le rest (ret.length + 1) a
          omega

/-- For a nonempty newest-first history, the number of entries the code
pops from the front equals the number of entries never reached. -/
theorem render_keycodes_idx (r : List KeyHistoryItem) (h : r ≠ []) :
    r.length - 1 - (render_keycodes r).2 = r.length - reachedCnt r := by
  cases r with
  | nil => exact absurd rfl h
  | cons x rest =>
    cases rest with
    | nil => rfl
    | cons b rest' =>
      simp only [render_keycodes, reachedCnt]
      rw [renderKeycodesLoop_idx (b :: rest') 1 [] x 1 1 (by simp)]
      have := reachedCntLoop_le (b :: rest') ([] : List String).length x
      simp only [List.length_nil] at this ⊢
      simp only [List.length_cons] at this ⊢
      omega

/-- C4: for every nonempty history buffer, the pruning step after a
render pass retains exactly the `reachedCnt` newest entries — the oldest
entry reached while building the group list and everything newer — and
drops all strictly older entries; on an empty buffer the render pass
returns an empty list (and the code never runs the pruning loop, which is
always preceded by an append). -/
theorem c4_prune_retains_reached :
    (∀ buf : List KeyHistoryItem, buf ≠ [] →
      prune_after_render buf
          = buf.drop (buf.length - reachedCnt buf.reverse)
        ∧ 1 ≤ reachedCnt buf.reverse
        ∧ reachedCnt buf.reverse ≤ buf.length)
    ∧ render_keycodes ([] : List KeyHistoryItem) = ([], 0) := by
  constructor
  · intro buf hbuf
    have hrev : buf.reverse ≠ [] := by
      simpa using hbuf
    have hlen : buf.reverse.length = buf.length := List.length_reverse buf
    refine ⟨?_, ?_, ?_⟩
    · unfold prune_after_render
      congr 1
      have := render_keycodes_idx buf.reverse hrev
      omega
    · cases hr : buf.reverse with
      | nil => exact absurd hr hrev
      | cons x rest => simp [reachedCnt]
    · cases hr : buf.reverse with
      | nil => exact absurd hr hrev
      | cons x rest =>
        have := reachedCntLoop_le rest 0 x
        rw [hr] at hlen
        simp only [List.length_cons] at hlen
        simp only [reachedCnt]
        omega
  · rfl

/-- Witness for C4 at a concrete two-entry buffer. -/
theorem c4_witness :
    (prune_after_render [sampleA, sampleB]
        = [sampleA, sampleB].drop
            ([sampleA, sampleB].length - reachedCnt [sampleA, sampleB].reverse)
      ∧ 1 ≤ reachedCnt [sampleA, sampleB].reverse
      ∧ reachedCnt [sampleA, sampleB].reverse ≤ [sampleA, sampleB].length) :=
  c4_prune_retains_reached.1 [sampleA, sampleB] (by simp)

/-- C5: the claimed format is false on a count-1 group: the code always
emits a space between the symbol and the (possibly empty) count suffix,
so a count-1 group renders with a trailing space. -/
theorem c5_counterexample :
    render_item sampleA 1 ≠ spec_render_item sampleA 1 := by decide

/-- C5 (amended): every group is formatted as the active modifiers in the
fixed order Alt, Super, Ctrl, Shift (each as the name followed by
`" + "`), then the symbol text, then a single space, then the ASCII
suffix `x<count>` exactly when the count exceeds one (a count-1 group has
nothing after the space). -/
theorem c5_format_amended (item : KeyHistoryItem) (count : Nat) :
    render_item item count = amended_render_item item count := by
  obtain ⟨s, c, sh, a, su⟩ := item
  cases c <;> cases sh <;> cases a <;> cases su <;>
    simp [render_item, amended_render_item, String.empty_append,
      String.append_empty, String.append_assoc]

/-- A record value other than 0 and 1 decodes to no press state. -/
theorem event_press_state_eq_none (e : InputEvent)
    (h0 : e.value ≠ 0) (h1 : e.value ≠ 1) : event_press_state e = none := by
  simp [event_press_state, h0, h1]

/-- A decoded press state pins down the record value: Up comes from 0 and
Down from 1. -/
theorem event_press_state_some (e : InputEvent) (ps : KeyPressState)
    (h : event_press_state e = some ps) :
    (ps = KeyPressState.Up ∧ e.value = 0)
      ∨ (ps = KeyPressState.Down ∧ e.value = 1) := by
  unfold event_press_state at h
  split at h
  · exact Or.inl ⟨by injection h with h; exact h.symm, by assumption⟩
  · split at h
    · exact Or.inr ⟨by injection h with h; exact h.symm, by assumption⟩
    · exact absurd h (by simp)

/-- C6: a key-class record whose value is neither 0 nor 1 (for example
autorepeat, value 2) is dropped at decode time and processing it leaves
the whole observable app state — history buffer, rendered lines and every
modifier flag — unchanged; value 0 decodes to Up and value 1 to Down. -/
theorem c6_unrecognized_value_noop :
    (∀ (app : AppState) (e : InputEvent), e.value ≠ 0 → e.value ≠ 1 →
        process_input_event app e = app ∧ event_press_state e = none)
    ∧ (∀ e : InputEvent, e.value = 0 →
        event_press_state e = some KeyPressState.Up)
    ∧ (∀ e : InputEvent, e.value = 1 →
        event_press_state e = some KeyPressState.Down) := by
  refine ⟨?_, ?_, ?_⟩
  · intro app e h0 h1
    have hn := event_press_state_eq_none e h0 h1
    constructor
    · unfold process_input_event
      rw [hn]
    · exact hn
  · intro e h
    simp [event_press_state, h]
  · intro e h
    simp [event_press_state, h]

/-- Witness for C6 at a concrete autorepeat record (value 2). -/
theorem c6_witness :
    (process_input_event initApp { type_ := 1, code := 30, value := 2 } = initApp
      ∧ event_press_state { type_ := 1, code := 30, value := 2 } = none)
    ∧ event_press_state { type_ := 1, code := 30, value := 0 }
        = some KeyPressState.Up
    ∧ event_press_state { type_ := 1, code := 30, value := 1 }
        = some KeyPressState.Down :=
  ⟨c6_unrecognized_value_noop.1 initApp
      { type_ := 1, code := 30, value := 2 } (by decide) (by decide),
    c6_unrecognized_value_noop.2.1 _ rfl,
    c6_unrecognized_value_noop.2.2 _ rfl⟩

/-- C7: processing any event that is not a Down of a non-modifier key —
any Up, any unrecognized value such as autorepeat, and any modifier-key
event — leaves the history buffer unchanged; only a Symbol-variant Down
reaches the append path. -/
theorem c7_no_append_cases :
    ∀ (app : AppState) (e : InputEvent),
      e.value ≠ 1 ∨ (KeyPress.from_code e.code).isModifier = true →
      (process_input_event app e).pressed_keycodes = app.pressed_keycodes := by
  intro app e h
  unfold process_input_event
  cases heps : event_press_state e with
  | none => rfl
  | some ps =>
    cases hk : KeyPress.from_code e.code with
    | Ctrl => simp
    | Alt => simp
    | Shift => simp
    | Super => simp
    | Other s =>
      have hv : e.value ≠ 1 := by
        rcases h with h | h
        · exact h
        · rw [hk] at h
          exact absurd h (by simp [KeyPress.isModifier])
      rcases event_press_state_some e ps heps with ⟨hup, _⟩ | ⟨_, hv1⟩
      · subst hup
        simp [is_keydown]
      · exact absurd hv1 hv

/-- Witness for C7 at a concrete Shift Down event. -/
theorem c7_witness :
    (process_input_event initApp
        { type_ := 1, code := 42, value := 1 }).pressed_keycodes
      = initApp.pressed_keycodes :=
  c7_no_append_cases initApp { type_ := 1, code := 42, value := 1 }
    (Or.inr (by decide))

/-- Processing a Down of a non-modifier key appends the chord, renders
over the reversed buffer and prunes from the front; the modifier state is
untouched. -/
theorem process_down_other (app : AppState) (e : InputEvent) (s : String)
    (hv : e.value = 1) (hk : KeyPress.from_code e.code = KeyPress.Other s) :
    process_input_event app e =
      { pressed_keycodes :=
          (app.pressed_keycodes
              ++ [KeyHistoryItem.mk s app.current_modifier_state]).drop
            ((app.pressed_keycodes
                ++ [KeyHistoryItem.mk s app.current_modifier_state]).length
              - 1
              - (render_keycodes
                  (app.pressed_keycodes
                    ++ [KeyHistoryItem.mk s
                          app.current_modifier_state]).reverse).2)
        rendered_keycodes :=
          (render_keycodes
            (app.pressed_keycodes
              ++ [KeyHistoryItem.mk s app.current_modifier_state]).reverse).1
        current_modifier_state := app.current_modifier_state } := by
  have heps : event_press_state e = some KeyPressState.Down := by
    simp [event_press_state, hv]
  unfold process_input_event
  rw [heps, hk]
  simp [is_keydown, Modifiers.update]

/-- C10: a processing step that appends a chord (a Down of a non-modifier
key) never prunes the just-appended entry: the resulting buffer is
nonempty and its newest element is that chord. -/
theorem c10_append_retained :
    ∀ (app : AppState) (e : InputEvent) (s : String),
      e.value = 1 → KeyPress.from_code e.code = KeyPress.Other s →
      (process_input_event app e).pressed_keycodes ≠ []
      ∧ (process_input_event app e).pressed_keycodes.getLast?
          = some (KeyHistoryItem.mk s app.current_modifier_state) := by
  intro app e s hv hk
  rw [process_down_other app e s hv hk]
  have hle :
      (app.pressed_keycodes
          ++ [KeyHistoryItem.mk s app.current_modifier_state]).length - 1
          - (render_keycodes
              (app.pressed_keycodes
                ++ [KeyHistoryItem.mk s app.current_modifier_state]).reverse).2
        ≤ app.pressed_keycodes.length := by
    simp only [List.length_append, List.length_singleton]
    omega
  constructor
  · rw [List.drop_append_of_le_length hle]
    simp
  · rw [List.drop_append_of_le_length hle]
    exact List.getLast?_concat _

/-- Witness for C10 at a concrete `A` Down event from the initial state. -/
theorem c10_witness :
    (process_input_event initApp
        { type_ := 1, code := 30, value := 1 }).pressed_keycodes ≠ []
    ∧ (process_input_event initApp
        { type_ := 1, code := 30, value := 1 }).pressed_keycodes.getLast?
        = some (KeyHistoryItem.mk "A" initApp.current_modifier_state) :=
  c10_append_retained initApp { type_ := 1, code := 30, value := 1 } "A"
    rfl (by decide)

/-- The render loop only ever extends its accumulated group list, so a
nonempty accumulator keeps its first group. -/
theorem renderKeycodesLoop_head_ne (items : List KeyHistoryItem) :
    ∀ (i : Nat) (ret : List String) (x : KeyHistoryItem) (c li : Nat),
      ret ≠ [] →
      ((renderKeycodesLoop items i ret x c li).1).head? = ret.head? := by
  induction items with
  | nil =>
    intro i ret x c li h
    cases ret with
    | nil => exact absurd rfl h
    | cons r rs => simp [renderKeycodesLoop]
  | cons a rest ih =>
    intro i ret x c li h
    simp only [renderKeycodesLoop]
    split
    · rfl
    · split
      · exact ih _ _ _ _ _ h
      · rw [ih _ _ _ _ _ (by simp)]
        cases ret with
        | nil => exact absurd rfl h
        | cons r rs => simp

/-- Entered with an empty accumulator, the render loop's first emitted
group is the current run extended by the chord-equal chain at the head of
the remaining items. -/
theorem renderKeycodesLoop_head_nil (items : List KeyHistoryItem) :
    ∀ (i : Nat) (x : KeyHistoryItem) (c li : Nat),
      ((renderKeycodesLoop items i [] x c li).1).head?
        = some (render_item x (c + chainRun items x)) := by
  induction items with
  | nil =>
    intro i x c li
    simp [renderKeycodesLoop, chainRun]
  | cons y rest ih =>
    intro i x c li
    simp only [renderKeycodesLoop, chainRun]
    have hcond : ¬(([] : List String).length > MAX_LINES) := by simp
    rw [if_neg hcond]
    by_cases hsame : is_same_key_chord y x = true
    · rw [if_pos hsame, if_pos hsame, ih (i + 1) y (c + 1) i]
      have hyx : y = x := same_chord_eq hsame
      subst hyx
      rw [show c + 1 + chainRun rest y = c + (1 + chainRun rest y) from by omega]
    · rw [if_neg hsame, if_neg hsame]
      rw [renderKeycodesLoop_head_ne rest (i + 1)
        ([] ++ [render_item x c]) y 1 i (by simp)]
      simp

/-- A non-modifier classification comes from the static label table. -/
theorem from_code_not_modifier (code : Nat)
    (h : (KeyPress.from_code code).isModifier = false) :
    KeyPress.from_code code = KeyPress.Other (code_to_str code) := by
  unfold KeyPress.from_code at h ⊢
  split at h
  · exact absurd h (by simp [KeyPress.isModifier])
  · split at h
    · exact absurd h (by simp [KeyPress.isModifier])
    · split at h
      · exact absurd h (by simp [KeyPress.isModifier])
      · split at h
        · exact absurd h (by simp [KeyPress.isModifier])
        · simp_all

/-- C8: a scancode with no layout mapping is not dropped and does not
fail: it resolves to the literal fallback label `UNKNOWN`, the chord is
appended and retained in the history buffer, and the newest rendered
group displays the fallback label. -/
theorem c8_unmapped_scancode_degrades :
    ∀ (app : AppState) (e : InputEvent),
      code_to_str e.code = "UNKNOWN" →
      (KeyPress.from_code e.code).isModifier = false →
      e.value = 1 →
      KeyPress.from_code e.code = KeyPress.Other "UNKNOWN"
      ∧ (process_input_event app e).pressed_keycodes.getLast?
          = some (KeyHistoryItem.mk "UNKNOWN" app.current_modifier_state)
      ∧ ∃ k, 1 ≤ k
          ∧ (process_input_event app e).rendered_keycodes.head?
            = some (render_item
                (KeyHistoryItem.mk "UNKNOWN" app.current_modifier_state) k) := by
  intro app e htable hmod hv
  have hk : KeyPress.from_code e.code = KeyPress.Other "UNKNOWN" := by
    rw [from_code_not_modifier e.code hmod, htable]
  refine ⟨hk, ?_, ?_⟩
  · rw [process_down_other app e "UNKNOWN" hv hk]
    have hle :
        (app.pressed_keycodes
            ++ [KeyHistoryItem.mk "UNKNOWN" app.current_modifier_state]).length
            - 1
            - (render_keycodes
                (app.pressed_keycodes
                  ++ [KeyHistoryItem.mk "UNKNOWN"
                        app.current_modifier_state]).reverse).2
          ≤ app.pressed_keycodes.length := by
      simp only [List.length_append, List.length_singleton]
      omega
    rw [List.drop_append_of_le_length hle]
    exact List.getLast?_concat _
  · refine ⟨1 + chainRun app.pressed_keycodes.reverse
      (KeyHistoryItem.mk "UNKNOWN" app.current_modifier_state), by omega, ?_⟩
    rw [process_down_other app e "UNKNOWN" hv hk]
    have hrev :
        (app.pressed_keycodes
            ++ [KeyHistoryItem.mk "UNKNOWN" app.current_modifier_state]).reverse
          = KeyHistoryItem.mk "UNKNOWN" app.current_modifier_state
              :: app.pressed_keycodes.reverse := by
      simp
    rw [hrev]
    simp only [render_keycodes]
    exact renderKeycodesLoop_head_nil app.pressed_keycodes.reverse 1 _ 1 1

/-- Witness for C8 at a concrete unmapped scancode (200) from the initial
state. -/
theorem c8_witness :
    KeyPress.from_code 200 = KeyPress.Other "UNKNOWN"
    ∧ (process_input_event initApp
        { type_ := 1, code := 200, value := 1 }).pressed_keycodes.getLast?
        = some (KeyHistoryItem.mk "UNKNOWN" initApp.current_modifier_state)
    ∧ ∃ k, 1 ≤ k
        ∧ (process_input_event initApp
            { type_ := 1, code := 200, value := 1 }).rendered_keycodes.head?
          = some (render_item
              (KeyHistoryItem.mk "UNKNOWN" initApp.current_modifier_state) k) :=
  c8_unmapped_scancode_degrades initApp { type_ := 1, code := 200, value := 1 }
    rfl (by decide) rfl

/-- The instrumented step computes the same state as
`process_input_event`. -/
theorem process_input_event_instr_fst (app : AppState) (e : InputEvent) :
    (process_input_event_instr app e).1 = process_input_event app e := by
  unfold process_input_event_instr process_input_event
  cases heps : event_press_state e with
  | none => rfl
  | some ps =>
    cases hk : KeyPress.from_code e.code with
    | Ctrl => rfl
    | Alt => rfl
    | Shift => rfl
    | Super => rfl
    | Other s =>
      by_cases hkd : is_keydown ps = true <;> simp [hkd]

/-- The instrumented step performs a render pass exactly on events that
are a recognized Down of a non-modifier key. -/
theorem process_input_event_instr_snd (app : AppState) (e : InputEvent) :
    (process_input_event_instr app e).2
      = if triggers_render e then 1 else 0 := by
  unfold process_input_event_instr triggers_render
  cases heps : event_press_state e with
  | none => rfl
  | some ps =>
    cases hk : KeyPress.from_code e.code with
    | Ctrl => rfl
    | Alt => rfl
    | Shift => rfl
    | Super => rfl
    | Other s =>
      by_cases hkd : is_keydown ps = true <;> simp [hkd]

/-- Unrolled characterization of the drain loop: final state is the left
fold of the per-event step, and the render-pass count adds one per
render-triggering event. -/
theorem app_update_tick_aux (events : List InputEvent) :
    ∀ (app : AppState) (n : Nat),
      events.foldl
        (fun acc e =>
          ((process_input_event_instr acc.1 e).1,
            acc.2 + (process_input_event_instr acc.1 e).2))
        (app, n)
      = (events.foldl process_input_event app,
          n + (events.filter triggers_render).length) := by
  induction events with
  | nil => intro app n; simp
  | cons e rest ih =>
    intro app n
    simp only [List.foldl_cons, List.filter_cons]
    rw [process_input_event_instr_fst, process_input_event_instr_snd, ih]
    by_cases ht : triggers_render e = true
    · simp [ht]
      omega
    · simp only [Bool.not_eq_true] at ht
      simp [ht]

/-- C9: the claim that every tick performs exactly one render pass is
false: a tick that drains zero events performs zero render passes (the
drawing code reuses the cached line list). -/
theorem c9_counterexample :
    (app_update_tick initApp []).2 = 0
    ∧ (app_update_tick initApp []).2 ≠ 1
    ∧ (app_update_tick initApp
        [{ type_ := 1, code := 30, value := 1 },
          { type_ := 1, code := 48, value := 1 }]).2 = 2 := by
  refine ⟨rfl, by decide, ?_⟩
  decide

/-- C9 (amended): each tick the update context drains and processes all
queued events in FIFO order (the final state is the left fold of the
per-event processing step), and the number of render passes performed
that tick equals the number of drained events that are a recognized Down
of a non-modifier key — zero or many per tick, not exactly one. -/
theorem c9_amended_drain_and_render_count :
    ∀ (app : AppState) (events : List InputEvent),
      (app_update_tick app events).1 = events.foldl process_input_event app
      ∧ (app_update_tick app events).2
          = (events.filter triggers_render).length := by
  intro app events
  unfold app_update_tick
  rw [app_update_tick_aux events app 0]
  simp
